import Mathlib

/-!
# Round-robin HTTP load balancer: endpoint selection, dispatch and health check

A shallow embedding of `backend.go` and `http_load_balancer.go`.

* The package-level variable `httpLB` becomes an explicit `HttpLoadBalancer`
  value threaded through every operation.
* A `*Backend` is a pointer into `httpLB.Endpoints`; every `Backend` is created by
  `AddEndpoint` and appended once, so a pointer is modelled by the index of the
  backend inside the registry.
* `uint64` is `Nat` reduced modulo `2 ^ 64`; `int` is `Int` with an explicit
  two's-complement wrap where the source adds.
* A Go run-time panic (integer division by zero, index out of range) is an explicit
  outcome.
* The mutex of a `Backend` and the atomic operations on the cursor are not modelled:
  the embedding is the sequential behaviour of the code.
-/

namespace LoadBalancer

/-! ## backend.go -/

/-- The part of `url.URL` the package reads. -/
structure URL where
  Scheme : String
  Host : String
  Path : String
  deriving DecidableEq, Repr

/-- `type Backend struct`: the URL and the liveness flag.  The `ReverseProxy` field is
the forwarding handle (see `ServeHTTP`). -/
structure Backend where
  URL : URL
  Alive : Bool
  deriving DecidableEq, Repr

/-- `func (b *Backend) SetAlive(status bool)`. -/
def Backend.SetAlive (b : Backend) (status : Bool) : Backend :=
  { b with Alive := status }

/-- `func (b *Backend) IsAlive() (status bool)`. -/
def Backend.IsAlive (b : Backend) : Bool :=
  b.Alive

/-! ## http_load_balancer.go: registry and selector -/

/-- The modulus of `uint64` arithmetic. -/
def uint64Size : Nat := 2 ^ 64

/-- `type HttpLoadBalancer struct`. -/
structure HttpLoadBalancer where
  Endpoints : List Backend
  current : Nat
  deriving DecidableEq, Repr

/-- `httpLB = HttpLoadBalancer{}` in `InitHttpLoadBalancer`. -/
def InitHttpLoadBalancer : HttpLoadBalancer :=
  { Endpoints := [], current := 0 }

/-- `func nextIdx() int`: the cursor is incremented (wrapping at `2 ^ 64`) and then
reduced modulo the registry size; `none` is the integer-divide-by-zero panic on an
empty registry, which happens after the increment. -/
def nextIdx (lb : HttpLoadBalancer) : Option Nat × HttpLoadBalancer :=
  let lb1 : HttpLoadBalancer := { lb with current := (lb.current + 1) % uint64Size }
  if lb1.Endpoints.length = 0 then (none, lb1)
  else (some (lb1.current % lb1.Endpoints.length), lb1)

/-- What a call of `getNextPeer` produces: a panic, the `nil` pointer, or the pointer
`httpLB.Endpoints[idx]`. -/
inductive Peer where
  | panicked : Peer
  | nil : Peer
  | backend (idx : Nat) : Peer
  deriving DecidableEq, Repr

/-- The loop `for i := next; i <= len(httpLB.Endpoints); i++` of `getNextPeer`.
The first argument counts the iterations that remain, `len + 1 - i`. -/
def getNextPeerLoop (lb : HttpLoadBalancer) (next : Nat) : Nat → Nat → Peer × HttpLoadBalancer
  | 0, _ => (Peer.nil, lb)
  | remaining + 1, i =>
    let idx := i % lb.Endpoints.length
    match lb.Endpoints[idx]? with
    | none => (Peer.panicked, lb)
    | some b =>
      if b.IsAlive then
        (Peer.backend idx, if i ≠ next then { lb with current := idx } else lb)
      else getNextPeerLoop lb next remaining (i + 1)

/-- `func getNextPeer() *Backend`. -/
def getNextPeer (lb : HttpLoadBalancer) : Peer × HttpLoadBalancer :=
  match nextIdx lb with
  | (none, lb1) => (Peer.panicked, lb1)
  | (some next, lb1) => getNextPeerLoop lb1 next (lb1.Endpoints.length + 1 - next) next

/-- Consecutive sequential calls of `getNextPeer`: the results in call order and the
final state. -/
def getNextPeerCalls : Nat → HttpLoadBalancer → List Peer × HttpLoadBalancer
  | 0, lb => ([], lb)
  | n + 1, lb =>
    let r := getNextPeer lb
    let rest := getNextPeerCalls n r.2
    (r.1 :: rest.1, rest.2)

/-- The result of the `k`-th consecutive call, `k ≥ 1`, of `getNextPeer`
(for `k = 0` there is no call). -/
def getNextPeerKth (k : Nat) (lb : HttpLoadBalancer) : Option Peer :=
  (getNextPeerCalls k lb).1.getLast?

/-- Every endpoint of the registry is alive. -/
def allAlive (lb : HttpLoadBalancer) : Prop :=
  ∀ b ∈ lb.Endpoints, b.IsAlive = true

/-- No endpoint of the registry is alive. -/
def noneAlive (lb : HttpLoadBalancer) : Prop :=
  ∀ b ∈ lb.Endpoints, b.IsAlive = false

instance (lb : HttpLoadBalancer) : Decidable (allAlive lb) := by
  unfold allAlive; infer_instance

instance (lb : HttpLoadBalancer) : Decidable (noneAlive lb) := by
  unfold noneAlive; infer_instance

/-- Exactly one endpoint, the one at index `j`, is alive. -/
def onlyAlive (lb : HttpLoadBalancer) (j : Nat) : Prop :=
  j < lb.Endpoints.length ∧
    ∀ i (h : i < lb.Endpoints.length), (lb.Endpoints.get ⟨i, h⟩).IsAlive = decide (i = j)


/-! ## http_load_balancer.go: registration and health check -/

/-- `func AddEndpoint(newUrl string) error`.  `parse` is `url.Parse`; the result is the
returned error (`none` is `nil`) and the registry afterwards.  A `Backend` literal
without `Alive` has the zero value `false`. -/
def AddEndpoint (parse : String → Except String URL) (newUrl : String)
    (lb : HttpLoadBalancer) : Option String × HttpLoadBalancer :=
  match parse newUrl with
  | Except.error err => (some err, lb)
  | Except.ok endpointUrl =>
    let backend : Backend := { URL := endpointUrl, Alive := false }
    (none, { lb with Endpoints := lb.Endpoints ++ [backend] })

/-- The body of `for _, endpoint := range lb.Endpoints` in `HealthCheck`, from position
`i` on.  `isBackendAlive i u` is the outcome of the probe `isBackendAlive(u)` made for
the endpoint at position `i`. -/
def HealthCheckLoop (isBackendAlive : Nat → URL → Bool) : Nat → List Backend → List Backend
  | _, [] => []
  | i, endpoint :: rest =>
    let alive := isBackendAlive i endpoint.URL
    endpoint.SetAlive alive :: HealthCheckLoop isBackendAlive (i + 1) rest

/-- `func (lb *HttpLoadBalancer) HealthCheck()`: one pass. -/
def HealthCheck (isBackendAlive : Nat → URL → Bool) (lb : HttpLoadBalancer) :
    HttpLoadBalancer :=
  { lb with Endpoints := HealthCheckLoop isBackendAlive 0 lb.Endpoints }

/-! ## http_load_balancer.go: dispatch and the failure handler -/

/-- Two's-complement wrap of a 64-bit `int`. -/
def wrapInt (x : Int) : Int := (x + 2 ^ 63) % 2 ^ 64 - 2 ^ 63

/-- The request-scoped context as the package reads it: the value stored under the key
`Retry` and the value stored under the key `Attempts`, each absent or an `int`. -/
structure Request where
  retry : Option Int
  attempts : Option Int
  deriving DecidableEq, Repr

/-- `func getRetryFromContext(req *http.Request) int`. -/
def getRetryFromContext (req : Request) : Int :=
  match req.retry with
  | some retry => retry
  | none => 0

/-- `func getAttemptsFromContext(req *http.Request) int`. -/
def getAttemptsFromContext (req : Request) : Int :=
  match req.attempts with
  | some attempts => attempts
  | none => 0

/-- Which proxy object a forwarding attempt went through: `backend.ReverseProxy`, the
copy stored in the `Backend` that carries the `ErrorHandler`, used by `LoadBalance`; or
`proxy`, the object `NewSingleHostReverseProxy` returned, used by the handler. -/
inductive Via where
  | backendReverseProxy : Via
  | proxy : Via
  deriving DecidableEq, Repr

/-- One forwarding attempt: the endpoint, the proxy object and the request context. -/
structure Forward where
  idx : Nat
  via : Via
  req : Request
  deriving DecidableEq, Repr

/-- The lines written with `log.Printf`. -/
inductive LogLine where
  | proxyError : LogLine
  | status (url : URL) (up : Bool) : LogLine
  | attemptingRetry (attempts : Int) : LogLine
  | maxAttemptsReached : LogLine
  deriving DecidableEq, Repr

/-- The response written to the `http.ResponseWriter`. -/
inductive Response where
  | serviceUnavailable (body : String) : Response
  | badGateway : Response
  | fromBackend (idx : Nat) : Response
  | panicked : Response
  deriving DecidableEq, Repr

/-- The HTTP status this package itself writes (`none`: the status is the backend's, or
the handler panicked). -/
def Response.status : Response → Option Nat
  | Response.serviceUnavailable _ => some 503
  | Response.badGateway => some 502
  | Response.fromBackend _ => none
  | Response.panicked => none

/-- The registry together with what a request leaves behind: the forwarding attempts
made and the lines logged, in order. -/
structure World where
  lb : HttpLoadBalancer
  forwards : List Forward
  log : List LogLine
  deriving DecidableEq, Repr

/-- `func MarkEndpointStatus(endpointUrl url.URL, status bool)`: it logs one line. -/
def MarkEndpointStatus (endpointUrl : URL) (status : Bool) (w : World) : World :=
  { w with log := w.log ++ [LogLine.status endpointUrl status] }

/-- `ServeHTTP` of a `httputil.ReverseProxy` for the endpoint `idx`: the request is
forwarded; `roundTrip n idx` is whether the forwarding attempt made after `n` earlier
ones succeeds.  On failure the proxy calls its `ErrorHandler` with the forwarded
request, and when that field is `nil` the default, which answers 502 Bad Gateway. -/
def ServeHTTP (roundTrip : Nat → Nat → Bool)
    (errorHandler : Option (Request → World → Option (Response × World)))
    (via : Via) (idx : Nat) (req : Request) (w : World) : Option (Response × World) :=
  let w1 : World := { w with forwards := w.forwards ++ [{ idx := idx, via := via, req := req }] }
  if roundTrip w.forwards.length idx then some (Response.fromBackend idx, w1)
  else
    match errorHandler with
    | none => some (Response.badGateway, w1)
    | some handler => handler req w1

/-- The closure `backend.ReverseProxy.ErrorHandler` that `AddEndpoint` installs for the
endpoint at position `idx` (`endpointUrl` is its URL).  `loadBalance` is the
re-dispatch `LoadBalance(req.WithContext(ctx), res)`.  The retry goes through `proxy`,
whose `ErrorHandler` was never set: `backend.ReverseProxy` is a copy of `*proxy` and
the handler is assigned to the copy.  The wait of 10 ms before the retry is not
modelled. -/
def ErrorHandler (roundTrip : Nat → Nat → Bool)
    (loadBalance : Request → World → Option (Response × World))
    (idx : Nat) (endpointUrl : URL) (req : Request) (w : World) : Option (Response × World) :=
  let w1 : World := { w with log := w.log ++ [LogLine.proxyError] }
  let retries := getRetryFromContext req
  if retries < 3 then
    let ctx : Request := { req with retry := some retries }
    ServeHTTP roundTrip none Via.proxy idx ctx w1
  else
    let w2 := MarkEndpointStatus endpointUrl false w1
    let attempts := getAttemptsFromContext req
    let w3 : World := { w2 with log := w2.log ++ [LogLine.attemptingRetry attempts] }
    let ctx : Request := { req with attempts := some (wrapInt (attempts + 1)) }
    loadBalance ctx w3

/-- `func LoadBalance(req *http.Request, res http.ResponseWriter)`.  The first argument
bounds the depth of re-dispatch through the failure handler; `none` means the bound was
reached. -/
def LoadBalance (roundTrip : Nat → Nat → Bool) :
    Nat → Request → World → Option (Response × World)
  | 0, _, _ => none
  | fuel + 1, req, w =>
    let attempts := getAttemptsFromContext req
    if attempts > 3 then
      some (Response.serviceUnavailable "Service not available",
        { w with log := w.log ++ [LogLine.maxAttemptsReached] })
    else
      match getNextPeer w.lb with
      | (Peer.panicked, lb1) => some (Response.panicked, { w with lb := lb1 })
      | (Peer.backend idx, lb1) =>
        -- the closure of `peer` captured `endpointUrl`, the URL of `peer`
        match lb1.Endpoints[idx]? with
        | none => some (Response.panicked, { w with lb := lb1 })
        | some peer =>
          ServeHTTP roundTrip
            (some (ErrorHandler roundTrip (LoadBalance roundTrip fuel) idx peer.URL))
            Via.backendReverseProxy idx req { w with lb := lb1 }
      | (Peer.nil, lb1) =>
        some (Response.serviceUnavailable "Service is not available", { w with lb := lb1 })

/-- The number of times `LoadBalance` selected an endpoint and forwarded to it. -/
def dispatchCount (w : World) : Nat :=
  (w.forwards.filter (fun f => f.via = Via.backendReverseProxy)).length

/-! ## Properties of the selector as predicates, and the inputs used below -/

/-- The rotation property: the `len` consecutive calls return backends whose indices
are a rearrangement of `0, …, len - 1`, each index one more (modulo `len`) than the
one before. -/
def visitsEachOnceInRotation (lb : HttpLoadBalancer) : Prop :=
  ∃ idxs : List Nat,
    (getNextPeerCalls lb.Endpoints.length lb).1 = idxs.map Peer.backend ∧
    idxs.Perm (List.range lb.Endpoints.length) ∧
    ∀ k (h : k + 1 < idxs.length),
      idxs.get ⟨k + 1, h⟩ = (idxs.get ⟨k, Nat.lt_of_succ_lt h⟩ + 1) % lb.Endpoints.length

/-- A backend for the host `host` with the given liveness. -/
def mkBackend (host : String) (alive : Bool) : Backend :=
  { URL := { Scheme := "http", Host := host, Path := "" }, Alive := alive }

/-- Three alive endpoints, the cursor two below the `uint64` wrap. -/
def wrapRegistry : HttpLoadBalancer :=
  { Endpoints := [mkBackend "a:80" true, mkBackend "b:80" true, mkBackend "c:80" true],
    current := 2 ^ 64 - 2 }

/-- Three endpoints of which only the middle one is alive, cursor `1`. -/
def middleAliveRegistry : HttpLoadBalancer :=
  { Endpoints := [mkBackend "a:80" false, mkBackend "b:80" true, mkBackend "c:80" false],
    current := 1 }

/-- One alive endpoint, cursor `0`. -/
def singleAliveRegistry : HttpLoadBalancer :=
  { Endpoints := [mkBackend "a:80" true], current := 0 }

/-- One dead endpoint, cursor `0`. -/
def singleDeadRegistry : HttpLoadBalancer :=
  { Endpoints := [mkBackend "a:80" false], current := 0 }

/-- A world with nothing forwarded or logged yet. -/
def freshWorld (lb : HttpLoadBalancer) : World :=
  { lb := lb, forwards := [], log := [] }

/-- The request at entry: neither counter is in the context. -/
def entryRequest : Request :=
  { retry := none, attempts := none }

/-- A request whose retries are exhausted and whose attempt count is absent. -/
def retriesExhaustedRequest : Request :=
  { retry := some 3, attempts := none }

/-- A parser that rejects the empty address. -/
def sampleParse (s : String) : Except String URL :=
  if s.length = 0 then Except.error "empty url"
  else Except.ok { Scheme := "http", Host := s, Path := "" }

/-- A transport on which every forwarding attempt fails. -/
def alwaysFails : Nat → Nat → Bool := fun _ _ => false

/-- A transport on which every forwarding attempt succeeds. -/
def alwaysSucceeds : Nat → Nat → Bool := fun _ _ => true

/-- Whether the registry has an endpoint at index `i` that is alive. -/
def aliveAt (lb : HttpLoadBalancer) (i : Nat) : Bool :=
  match lb.Endpoints[i]? with
  | some b => b.IsAlive
  | none => false

/-- A sequence of `AddEndpoint` calls, one per address, whatever each one returns. -/
def AddEndpoints (parse : String → Except String URL) :
    List String → HttpLoadBalancer → HttpLoadBalancer
  | [], lb => lb
  | newUrl :: rest, lb => AddEndpoints parse rest (AddEndpoint parse newUrl lb).2

/-- The selection as the specification words it: scan the indices `start, start + 1, …,
start + size` modulo `size`, where `start = (cursor + 1) mod size`, and take the first
one whose endpoint is alive. -/
def specNextPeer (lb : HttpLoadBalancer) : Option Nat :=
  let size := lb.Endpoints.length
  let start := (lb.current + 1) % size
  ((List.range (size + 1)).map (fun k => (start + k) % size)).find? (aliveAt lb)

/-- The URL of the host `host`. -/
def hostURL (host : String) : URL :=
  { Scheme := "http", Host := host, Path := "" }

/-- The registry `[A, B, C]` with every endpoint alive and the given cursor. -/
def abcRegistry (a b c : URL) (cursor : Nat) : HttpLoadBalancer :=
  { Endpoints := [⟨a, true⟩, ⟨b, true⟩, ⟨c, true⟩], current := cursor }

/-- The registry `[A, B]` with `A` dead and `B` alive and the given cursor. -/
def abRegistry (a b : URL) (cursor : Nat) : HttpLoadBalancer :=
  { Endpoints := [⟨a, false⟩, ⟨b, true⟩], current := cursor }

/-- Three endpoints, the first dead, the cursor at the largest `uint64` value. -/
def lastCursorRegistry : HttpLoadBalancer :=
  { Endpoints := [mkBackend "a:80" false, mkBackend "b:80" true, mkBackend "c:80" true],
    current := 2 ^ 64 - 1 }

/-! ## The selector -/

theorem getNextPeerLoop_alive (lb : HttpLoadBalancer) (next r : Nat) (b : Backend)
    (hb : lb.Endpoints[next % lb.Endpoints.length]? = some b) (ha : b.IsAlive = true) :
    getNextPeerLoop lb next (r + 1) next = (Peer.backend (next % lb.Endpoints.length), lb) := by
  simp [getNextPeerLoop, hb, ha]

theorem getNextPeer_allAlive (lb : HttpLoadBalancer) (hN : 1 ≤ lb.Endpoints.length)
    (hall : allAlive lb) :
    getNextPeer lb =
      (Peer.backend ((lb.current + 1) % uint64Size % lb.Endpoints.length),
        { lb with current := (lb.current + 1) % uint64Size }) := by
  have hne : lb.Endpoints.length ≠ 0 := by omega
  have hlt : (lb.current + 1) % uint64Size % lb.Endpoints.length < lb.Endpoints.length :=
    Nat.mod_lt _ (by omega)
  have hsub : lb.Endpoints.length + 1 -
      (lb.current + 1) % uint64Size % lb.Endpoints.length =
      (lb.Endpoints.length -
        (lb.current + 1) % uint64Size % lb.Endpoints.length) + 1 := by omega
  simp only [getNextPeer, nextIdx, hne, if_false]
  rw [hsub]
  have hget := List.getElem?_eq_getElem hlt
  have hmm : (lb.current + 1) % uint64Size % lb.Endpoints.length % lb.Endpoints.length
      = (lb.current + 1) % uint64Size % lb.Endpoints.length := Nat.mod_mod _ _
  rw [getNextPeerLoop_alive _ _ _ (lb.Endpoints[(lb.current + 1) % uint64Size % lb.Endpoints.length])]
  · simp
  · simp [hget]
  · exact hall _ (List.getElem_mem _)

theorem getNextPeerCalls_allAlive (n : Nat) : ∀ (lb : HttpLoadBalancer),
    1 ≤ lb.Endpoints.length → allAlive lb → lb.current + n < uint64Size →
    (getNextPeerCalls n lb).1 =
      (List.range n).map (fun k => Peer.backend ((lb.current + 1 + k) % lb.Endpoints.length)) := by
  induction n with
  | zero => intro lb _ _ _; rfl
  | succ n ih =>
    intro lb hN hall hc
    have hmod : (lb.current + 1) % uint64Size = lb.current + 1 := Nat.mod_eq_of_lt (by omega)
    have hstep := getNextPeer_allAlive lb hN hall
    rw [hmod] at hstep
    have hrec := ih { lb with current := lb.current + 1 } hN hall (by simp; omega)
    simp only [getNextPeerCalls, hstep, hrec, List.range_succ_eq_map, List.map_cons,
      List.map_map, Nat.add_zero]
    congr 1
    apply List.map_congr_left
    intro k _
    simp only [Function.comp]
    congr 2
    omega

theorem rotation_perm (N a : Nat) :
    ((List.range N).map (fun k => (a + k) % N)).Perm (List.range N) := by
  have h : (List.range N).map (fun k => (a + k) % N) = (List.range N).rotate (a % N) := by
    apply List.ext_getElem
    · simp
    · intro k h1 h2
      simp only [List.length_map, List.length_range] at h1
      rw [List.getElem_rotate]
      simp [Nat.add_comm]
  rw [h]
  exact List.rotate_perm _ _

/-- C1 (amended): for a registry of `N ≥ 1` endpoints that are all alive and a cursor
that does not pass the `uint64` wrap during the calls (`current + N < 2 ^ 64`), the `N`
consecutive `getNextPeer` calls return every endpoint exactly once, each call returning
the endpoint whose index is one more (modulo `N`) than that of the previous call. -/
theorem rotation_without_wrap (lb : HttpLoadBalancer) (hN : 1 ≤ lb.Endpoints.length)
    (hall : allAlive lb) (hc : lb.current + lb.Endpoints.length < uint64Size) :
    visitsEachOnceInRotation lb := by
  refine ⟨(List.range lb.Endpoints.length).map
    (fun k => (lb.current + 1 + k) % lb.Endpoints.length), ?_, ?_, ?_⟩
  · rw [getNextPeerCalls_allAlive _ lb hN hall hc, List.map_map]
    rfl
  · exact rotation_perm _ _
  · intro k h
    simp only [List.get_eq_getElem, List.getElem_map, List.getElem_range]
    rw [← Nat.add_assoc]
    exact (Nat.mod_add_mod _ _ _).symm

/-- C1, witness: three alive endpoints and cursor `7`. -/
theorem rotation_without_wrap_witness :
    (1 ≤ ({ wrapRegistry with current := 7 } : HttpLoadBalancer).Endpoints.length ∧
      allAlive { wrapRegistry with current := 7 }) ∧
    visitsEachOnceInRotation { wrapRegistry with current := 7 } :=
  ⟨⟨by decide, by decide⟩,
    rotation_without_wrap { wrapRegistry with current := 7 } (by decide) (by decide)
      (by decide)⟩

/-- C1, counterexample: with three alive endpoints and the cursor at `2 ^ 64 - 2` the
three calls return the endpoints `0, 0, 1`: the cursor wraps from `2 ^ 64 - 1` to `0`
and `2 ^ 64` is not a multiple of `3`. -/
theorem rotation_fails_at_wrap :
    1 ≤ wrapRegistry.Endpoints.length ∧ allAlive wrapRegistry ∧
      wrapRegistry.current < uint64Size ∧
      (getNextPeerCalls 3 wrapRegistry).1 =
        [Peer.backend 0, Peer.backend 0, Peer.backend 1] ∧
      ¬ visitsEachOnceInRotation wrapRegistry := by
  refine ⟨by decide, by decide, by decide, by decide, ?_⟩
  rintro ⟨idxs, hcalls, hperm, -⟩
  have hres : (getNextPeerCalls wrapRegistry.Endpoints.length wrapRegistry).1 =
      [0, 0, 1].map Peer.backend := by decide
  rw [hres] at hcalls
  have hinj : Function.Injective Peer.backend := fun a b h => by cases h; rfl
  have hidx : idxs = [0, 0, 1] := (List.map_injective_iff.mpr hinj hcalls).symm
  subst hidx
  revert hperm
  decide

/-- C2, evaluated at the failing input: in the registry `[a dead, b alive, c dead]`
with cursor `1` exactly one endpoint is alive, and the first `getNextPeer` call returns
`nil`: the scan starts at index `2`, reads index `2` and index `3 % 3 = 0`, and stops
at `i = 4 > len` without reaching index `1`. -/
theorem single_alive_endpoint_missed :
    onlyAlive middleAliveRegistry 1 ∧
      getNextPeerKth 1 middleAliveRegistry = some Peer.nil ∧
      (getNextPeerCalls 4 middleAliveRegistry).1 =
        [Peer.nil, Peer.backend 1, Peer.nil, Peer.backend 1] := by
  refine ⟨⟨by decide, ?_⟩, by decide, by decide⟩
  intro i h
  have h3 : i < 3 := h
  interval_cases i <;> rfl

theorem getNextPeerLoop_noneAlive (lb : HttpLoadBalancer) (next : Nat)
    (hN : 1 ≤ lb.Endpoints.length) (hdead : noneAlive lb) :
    ∀ remaining i, getNextPeerLoop lb next remaining i = (Peer.nil, lb) := by
  intro remaining
  induction remaining with
  | zero => intro i; rfl
  | succ r ih =>
    intro i
    have hlt : i % lb.Endpoints.length < lb.Endpoints.length := Nat.mod_lt _ (by omega)
    have hb := hdead _ (List.getElem_mem hlt)
    simp [getNextPeerLoop, List.getElem?_eq_getElem hlt, hb, ih]

theorem getNextPeer_of_noneAlive (lb : HttpLoadBalancer) (hN : 1 ≤ lb.Endpoints.length)
    (hdead : noneAlive lb) :
    getNextPeer lb = (Peer.nil, { lb with current := (lb.current + 1) % uint64Size }) := by
  have hne : lb.Endpoints.length ≠ 0 := by omega
  simp only [getNextPeer, nextIdx, hne, if_false]
  exact getNextPeerLoop_noneAlive
    { lb with current := (lb.current + 1) % uint64Size } _ hN hdead _ _

/-- C5: for every non-empty registry in which no endpoint is alive and every cursor
value, `getNextPeer` returns `nil` (the function is total, so the call terminates); the
only change of state is the increment of the cursor. -/
theorem getNextPeer_noneAlive (lb : HttpLoadBalancer) (hN : 1 ≤ lb.Endpoints.length)
    (hdead : noneAlive lb) :
    getNextPeer lb = (Peer.nil, { lb with current := (lb.current + 1) % uint64Size }) :=
  getNextPeer_of_noneAlive lb hN hdead

/-- C5, witness: a registry of exactly one dead endpoint returns `nil`. -/
theorem getNextPeer_noneAlive_witness :
    (1 ≤ singleDeadRegistry.Endpoints.length ∧ noneAlive singleDeadRegistry) ∧
      getNextPeer singleDeadRegistry =
        (Peer.nil, { singleDeadRegistry with current := (0 + 1) % uint64Size }) :=
  ⟨⟨by decide, by decide⟩, getNextPeer_noneAlive singleDeadRegistry (by decide) (by decide)⟩

/-! ## Dispatch -/

/-- C7: for every request whose attempt count is greater than `3` and every registry
state, `LoadBalance` answers 503 Service Unavailable, forwards the request to no
endpoint, and leaves the registry (cursor and liveness flags) unchanged. -/
theorem LoadBalance_attempts_exhausted (roundTrip : Nat → Nat → Bool) (fuel : Nat)
    (req : Request) (w : World) (h : getAttemptsFromContext req > 3) :
    ∃ r w1, LoadBalance roundTrip (fuel + 1) req w = some (r, w1) ∧
      r.status = some 503 ∧ w1.forwards = w.forwards ∧ w1.lb = w.lb := by
  refine ⟨Response.serviceUnavailable "Service not available",
    { w with log := w.log ++ [LogLine.maxAttemptsReached] }, ?_, rfl, rfl, rfl⟩
  simp [LoadBalance, h]

/-- C7, witness: attempt count `4` on a registry with one alive endpoint. -/
theorem LoadBalance_attempts_exhausted_witness :
    getAttemptsFromContext { retry := none, attempts := some 4 } > 3 ∧
    ∃ r w1, LoadBalance alwaysSucceeds (0 + 1) { retry := none, attempts := some 4 }
        (freshWorld singleAliveRegistry) = some (r, w1) ∧
      r.status = some 503 ∧ w1.forwards = (freshWorld singleAliveRegistry).forwards ∧
      w1.lb = (freshWorld singleAliveRegistry).lb :=
  ⟨by decide, LoadBalance_attempts_exhausted alwaysSucceeds 0
    { retry := none, attempts := some 4 } (freshWorld singleAliveRegistry) (by decide)⟩

/-- C6: for every non-empty registry in which no endpoint is alive and every request,
whatever its attempt count, `LoadBalance` answers 503 Service Unavailable and forwards
the request to no endpoint. -/
theorem LoadBalance_noneAlive (roundTrip : Nat → Nat → Bool) (fuel : Nat)
    (req : Request) (w : World) (hN : 1 ≤ w.lb.Endpoints.length) (hdead : noneAlive w.lb) :
    ∃ r w1, LoadBalance roundTrip (fuel + 1) req w = some (r, w1) ∧
      r.status = some 503 ∧ w1.forwards = w.forwards := by
  by_cases h : getAttemptsFromContext req > 3
  · exact ⟨Response.serviceUnavailable "Service not available",
      { w with log := w.log ++ [LogLine.maxAttemptsReached] },
      by simp [LoadBalance, h], rfl, rfl⟩
  · refine ⟨Response.serviceUnavailable "Service is not available",
      { w with lb := { w.lb with current := (w.lb.current + 1) % uint64Size } }, ?_, rfl, rfl⟩
    simp [LoadBalance, h, getNextPeer_of_noneAlive w.lb hN hdead]

/-- C6, witness: one dead endpoint, a request at entry. -/
theorem LoadBalance_noneAlive_witness :
    (1 ≤ (freshWorld singleDeadRegistry).lb.Endpoints.length ∧
      noneAlive (freshWorld singleDeadRegistry).lb) ∧
    ∃ r w1, LoadBalance alwaysSucceeds (0 + 1) entryRequest (freshWorld singleDeadRegistry) =
        some (r, w1) ∧
      r.status = some 503 ∧ w1.forwards = (freshWorld singleDeadRegistry).forwards :=
  ⟨⟨by decide, by decide⟩, LoadBalance_noneAlive alwaysSucceeds 0 entryRequest
    (freshWorld singleDeadRegistry) (by decide) (by decide)⟩

/-! ## Health check and registration -/

theorem HealthCheckLoop_getElem? (isBackendAlive : Nat → URL → Bool) (l : List Backend) :
    ∀ (i k : Nat), (HealthCheckLoop isBackendAlive i l)[k]? =
      l[k]?.map (fun b => { URL := b.URL, Alive := isBackendAlive (i + k) b.URL }) := by
  induction l with
  | nil => intro i k; simp [HealthCheckLoop]
  | cons b rest ih =>
    intro i k
    cases k with
    | zero => simp [HealthCheckLoop, Backend.SetAlive]
    | succ k =>
      simp only [HealthCheckLoop, List.getElem?_cons_succ, ih]
      congr 1
      funext b
      congr 2
      omega

theorem HealthCheckLoop_length (isBackendAlive : Nat → URL → Bool) (l : List Backend) :
    ∀ i, (HealthCheckLoop isBackendAlive i l).length = l.length := by
  induction l with
  | nil => intro i; rfl
  | cons b rest ih => intro i; simp [HealthCheckLoop, ih]

/-- C9: for every registry and every probe outcome, after one `HealthCheck` pass the
endpoint at each position has the URL it had before and `IsAlive()` equal to the probe
outcome for it, whatever its liveness was before; the number and order of the endpoints
and the cursor are unchanged. -/
theorem HealthCheck_sets_probe_outcome (isBackendAlive : Nat → URL → Bool)
    (lb : HttpLoadBalancer) :
    (HealthCheck isBackendAlive lb).current = lb.current ∧
    (HealthCheck isBackendAlive lb).Endpoints.length = lb.Endpoints.length ∧
    (HealthCheck isBackendAlive lb).Endpoints.map Backend.URL = lb.Endpoints.map Backend.URL ∧
    ∀ k, ((HealthCheck isBackendAlive lb).Endpoints[k]?).map Backend.IsAlive =
      (lb.Endpoints[k]?).map (fun b => isBackendAlive k b.URL) := by
  refine ⟨rfl, HealthCheckLoop_length _ _ _, ?_, ?_⟩
  · apply List.ext_getElem?
    intro k
    simp only [HealthCheck, HealthCheckLoop_getElem?, List.getElem?_map, Nat.zero_add,
      Option.map_map]
    cases lb.Endpoints[k]? <;> rfl
  · intro k
    simp only [HealthCheck, HealthCheckLoop_getElem?, Nat.zero_add, Option.map_map]
    cases lb.Endpoints[k]? <;> rfl

/-- C10: `AddEndpoint` returns an error exactly when parsing the address fails, and
then the registry is unchanged; otherwise it returns no error and the registry is the
previous sequence of endpoints with one new endpoint for the parsed address appended
at the end, the cursor unchanged. -/
theorem AddEndpoint_spec (parse : String → Except String URL) (newUrl : String)
    (lb : HttpLoadBalancer) :
    (∀ err, parse newUrl = Except.error err →
      AddEndpoint parse newUrl lb = (some err, lb)) ∧
    (∀ u, parse newUrl = Except.ok u →
      ∃ b : Backend, b.URL = u ∧
        AddEndpoint parse newUrl lb =
          (none, { Endpoints := lb.Endpoints ++ [b], current := lb.current })) ∧
    ((AddEndpoint parse newUrl lb).1.isSome = true ↔ ∃ err, parse newUrl = Except.error err) := by
  refine ⟨?_, ?_, ?_⟩
  · intro err h; simp [AddEndpoint, h]
  · intro u h; exact ⟨{ URL := u, Alive := false }, rfl, by simp [AddEndpoint, h]⟩
  · cases h : parse newUrl <;> simp [AddEndpoint, h]

/-- C10, witness: the empty address is rejected and leaves the registry as it was; the
address `b:80` is appended after the existing endpoint. -/
theorem AddEndpoint_spec_witness :
    AddEndpoint sampleParse "" singleAliveRegistry = (some "empty url", singleAliveRegistry) ∧
    ∃ b : Backend, b.URL = { Scheme := "http", Host := "b:80", Path := "" } ∧
      AddEndpoint sampleParse "b:80" singleAliveRegistry =
        (none, { Endpoints := singleAliveRegistry.Endpoints ++ [b],
                 current := singleAliveRegistry.current }) :=
  ⟨(AddEndpoint_spec sampleParse "" singleAliveRegistry).1 "empty url" rfl,
    (AddEndpoint_spec sampleParse "b:80" singleAliveRegistry).2.1 _ rfl⟩

/-! ## The retry and failover chain -/

theorem wrapInt_small (a : Int) (h0 : 0 ≤ a) (h3 : a ≤ 3) : wrapInt (a + 1) = a + 1 := by
  unfold wrapInt
  omega

/-- What the failure handler adds: with the re-dispatch bounded by `n` dispatches, the
handler stays within `n`. -/
theorem ErrorHandler_dispatch_bound (roundTrip : Nat → Nat → Bool)
    (loadBalance : Request → World → Option (Response × World)) (n : Nat)
    (idx : Nat) (endpointUrl : URL) (req : Request) (w : World)
    (hrec : ∀ w0, dispatchCount w0 = dispatchCount w →
      ∃ r w1, loadBalance
        { req with attempts := some (wrapInt (getAttemptsFromContext req + 1)) } w0 = some (r, w1) ∧
        dispatchCount w1 ≤ dispatchCount w0 + n) :
    ∃ r w1, ErrorHandler roundTrip loadBalance idx endpointUrl req w = some (r, w1) ∧
      dispatchCount w1 ≤ dispatchCount w + n := by
  unfold ErrorHandler
  by_cases hr : getRetryFromContext req < 3
  · simp only [hr, if_true, ServeHTTP]
    split
    · exact ⟨_, _, rfl, by simp [dispatchCount, List.filter_append]⟩
    · exact ⟨_, _, rfl, by simp [dispatchCount, List.filter_append]⟩
  · simp only [hr, if_false]
    exact hrec
      { MarkEndpointStatus endpointUrl false { w with log := w.log ++ [LogLine.proxyError] } with
        log := (MarkEndpointStatus endpointUrl false
          { w with log := w.log ++ [LogLine.proxyError] }).log ++
            [LogLine.attemptingRetry (getAttemptsFromContext req)] } rfl

theorem LoadBalance_dispatch_bound (roundTrip : Nat → Nat → Bool) :
    ∀ (fuel : Nat) (req : Request) (w : World), 0 ≤ getAttemptsFromContext req →
      (4 - getAttemptsFromContext req).toNat < fuel →
      ∃ r w1, LoadBalance roundTrip fuel req w = some (r, w1) ∧
        dispatchCount w1 ≤ dispatchCount w + (4 - getAttemptsFromContext req).toNat := by
  intro fuel
  induction fuel with
  | zero => intro req w _ h; omega
  | succ fuel ih =>
    intro req w h0 hf
    unfold LoadBalance
    by_cases ha : getAttemptsFromContext req > 3
    · simp only [ha, if_true]
      exact ⟨_, _, rfl, Nat.le_add_right _ _⟩
    · simp only [ha, if_false]
      rcases hp : getNextPeer w.lb with ⟨p, lb1⟩
      cases p with
      | panicked => exact ⟨_, _, rfl, Nat.le_add_right _ _⟩
      | nil => exact ⟨_, _, rfl, Nat.le_add_right _ _⟩
      | backend idx =>
        simp only
        cases hpeer : lb1.Endpoints[idx]? with
        | none => exact ⟨_, _, rfl, Nat.le_add_right _ _⟩
        | some peer =>
          simp only [ServeHTTP]
          by_cases hrt : roundTrip w.forwards.length idx = true
          · simp only [hrt, if_true]
            refine ⟨_, _, rfl, ?_⟩
            simp only [dispatchCount, List.filter_append]
            simp
            omega
          · simp only [hrt, if_false]
            have hw : wrapInt (getAttemptsFromContext req + 1) = getAttemptsFromContext req + 1 :=
              wrapInt_small _ h0 (by omega)
            obtain ⟨r, w1, h1, h2⟩ := ErrorHandler_dispatch_bound roundTrip
              (LoadBalance roundTrip fuel) ((4 - getAttemptsFromContext req).toNat - 1)
              idx peer.URL req
              { lb := lb1, forwards := w.forwards ++ [⟨idx, Via.backendReverseProxy, req⟩],
                log := w.log }
              (by
                intro w0 _
                have hreq : getAttemptsFromContext
                    { req with attempts := some (wrapInt (getAttemptsFromContext req + 1)) } =
                    getAttemptsFromContext req + 1 := hw
                obtain ⟨r, w1, h1, h2⟩ :=
                  ih { req with attempts := some (wrapInt (getAttemptsFromContext req + 1)) }
                    w0 (by rw [hreq]; omega) (by rw [hreq]; omega)
                refine ⟨r, w1, h1, ?_⟩
                rw [hreq] at h2
                omega)
            refine ⟨r, w1, h1, ?_⟩
            simp only [dispatchCount, List.filter_append] at h2 ⊢
            simp at h2
            omega

theorem LoadBalance_failover_step (fuel : Nat) (req : Request) (w : World)
    (hN : 1 ≤ w.lb.Endpoints.length) (hall : allAlive w.lb)
    (hr : ¬ getRetryFromContext req < 3) (ha : ¬ getAttemptsFromContext req > 3) :
    ∃ w1, LoadBalance alwaysFails (fuel + 1) req w =
        LoadBalance alwaysFails fuel
          { req with attempts := some (wrapInt (getAttemptsFromContext req + 1)) } w1 ∧
      w1.lb.Endpoints = w.lb.Endpoints ∧
      w1.forwards.length = w.forwards.length + 1 ∧
      dispatchCount w1 = dispatchCount w + 1 := by
  have hlt : (w.lb.current + 1) % uint64Size % w.lb.Endpoints.length < w.lb.Endpoints.length :=
    Nat.mod_lt _ (by omega)
  refine ⟨{ lb := { w.lb with current := (w.lb.current + 1) % uint64Size },
            forwards := w.forwards ++
              [⟨(w.lb.current + 1) % uint64Size % w.lb.Endpoints.length,
                Via.backendReverseProxy, req⟩],
            log := w.log ++ [LogLine.proxyError] ++
              [LogLine.status
                (w.lb.Endpoints[(w.lb.current + 1) % uint64Size % w.lb.Endpoints.length]).URL
                false] ++
              [LogLine.attemptingRetry (getAttemptsFromContext req)] }, ?_, rfl, ?_, ?_⟩
  · simp only [LoadBalance, ha, if_false, getNextPeer_allAlive w.lb hN hall,
      List.getElem?_eq_getElem hlt, ServeHTTP, alwaysFails, ErrorHandler, hr,
      MarkEndpointStatus]
    rfl
  · simp
  · simp [dispatchCount, List.filter_append]

theorem LoadBalance_failover_chain (k : Nat) : ∀ (fuel : Nat) (req : Request) (w : World),
    1 ≤ w.lb.Endpoints.length → allAlive w.lb → ¬ getRetryFromContext req < 3 →
    0 ≤ getAttemptsFromContext req → getAttemptsFromContext req + k = 4 →
    ∃ w1, LoadBalance alwaysFails (fuel + k + 1) req w =
        some (Response.serviceUnavailable "Service not available", w1) ∧
      w1.forwards.length = w.forwards.length + k ∧
      dispatchCount w1 = dispatchCount w + k := by
  induction k with
  | zero =>
    intro fuel req w _ _ _ _ h4
    have ha : getAttemptsFromContext req > 3 := by omega
    exact ⟨{ w with log := w.log ++ [LogLine.maxAttemptsReached] },
      by simp [LoadBalance, ha], rfl, rfl⟩
  | succ k ih =>
    intro fuel req w hN hall hr h0 h4
    have ha : ¬ getAttemptsFromContext req > 3 := by omega
    obtain ⟨w1, hstep, hE, hf, hd⟩ := LoadBalance_failover_step (fuel + k + 1) req w hN hall hr ha
    have hw : wrapInt (getAttemptsFromContext req + 1) = getAttemptsFromContext req + 1 :=
      wrapInt_small _ h0 (by omega)
    have hreq : getAttemptsFromContext
        { req with attempts := some (wrapInt (getAttemptsFromContext req + 1)) } =
        getAttemptsFromContext req + 1 := hw
    obtain ⟨w2, hres, hf2, hd2⟩ :=
      ih fuel { req with attempts := some (wrapInt (getAttemptsFromContext req + 1)) } w1
        (by rw [hE]; exact hN) (by unfold allAlive; rw [hE]; exact hall) hr
        (by rw [hreq]; omega) (by rw [hreq]; omega)
    refine ⟨w2, ?_, by omega, by omega⟩
    rw [show fuel + (k + 1) + 1 = (fuel + k + 1) + 1 by omega, hstep, hres]

/-- The failover chain once the retries are exhausted: for a request with attempt count
`0` and retry count `≥ 3`, when every forwarding attempt fails and every endpoint of the
non-empty registry is alive, `LoadBalance` ends with the service-unavailable response
after exactly `4` forwarding attempts, each one a dispatch of `LoadBalance`. -/
theorem failover_chain_four_forwards (fuel : Nat) (req : Request) (w : World)
    (hN : 1 ≤ w.lb.Endpoints.length) (hall : allAlive w.lb)
    (hr : 3 ≤ getRetryFromContext req) (ha : getAttemptsFromContext req = 0) :
    ∃ w1, LoadBalance alwaysFails (fuel + 5) req w =
        some (Response.serviceUnavailable "Service not available", w1) ∧
      (Response.serviceUnavailable "Service not available").status = some 503 ∧
      w1.forwards.length = w.forwards.length + 4 ∧
      dispatchCount w1 = dispatchCount w + 4 := by
  obtain ⟨w1, h1, h2, h3⟩ := LoadBalance_failover_chain 4 fuel req w hN hall (by omega)
    (by omega) (by omega)
  exact ⟨w1, h1, rfl, h2, h3⟩

/-- C3, evaluated at the failing input: a request entering with both counters at zero,
one alive endpoint, every forwarding attempt failing.  The chain ends with 502 Bad
Gateway after two forwarding attempts, not with 503 after twelve: the dispatch through
`backend.ReverseProxy`, then one retry through `proxy`, which carries the retry count
`0` again and whose failure goes to the default handler. -/
theorem retry_chain_not_twelve :
    getRetryFromContext entryRequest = 0 ∧ getAttemptsFromContext entryRequest = 0 ∧
    (LoadBalance alwaysFails 13 entryRequest (freshWorld singleAliveRegistry)).map
        (fun r => (r.1, r.2.forwards.length)) = some (Response.badGateway, 2) ∧
    Response.badGateway.status ≠ some 503 ∧ 2 ≠ 12 ∧
    (LoadBalance alwaysFails 13 entryRequest (freshWorld singleAliveRegistry)).map
        (fun r => r.2.forwards.map (fun f => (f.idx, f.via, getRetryFromContext f.req))) =
      some [(0, Via.backendReverseProxy, 0), (0, Via.proxy, 0)] := by
  decide

/-- C8 (amended): along any chain for a request that enters `LoadBalance` with attempt
count `0`, whatever the transport and the registry do, `LoadBalance` ends with a
response and has selected and forwarded to an endpoint at most `4` times. -/
theorem dispatches_at_most_four (roundTrip : Nat → Nat → Bool) (fuel : Nat)
    (req : Request) (w : World) (ha : getAttemptsFromContext req = 0) :
    ∃ r w1, LoadBalance roundTrip (fuel + 5) req w = some (r, w1) ∧
      dispatchCount w1 ≤ dispatchCount w + 4 := by
  obtain ⟨r, w1, h1, h2⟩ := LoadBalance_dispatch_bound roundTrip (fuel + 5) req w
    (by omega) (by rw [ha]; simp)
  refine ⟨r, w1, h1, ?_⟩
  rw [ha] at h2
  simpa using h2

/-- C8, witness: the request at entry on a registry with one alive endpoint. -/
theorem dispatches_at_most_four_witness :
    getAttemptsFromContext entryRequest = 0 ∧
    ∃ r w1, LoadBalance alwaysFails (0 + 5) entryRequest (freshWorld singleAliveRegistry) =
        some (r, w1) ∧
      dispatchCount w1 ≤ dispatchCount (freshWorld singleAliveRegistry) + 4 :=
  ⟨by decide, dispatches_at_most_four alwaysFails 0 entryRequest
    (freshWorld singleAliveRegistry) (by decide)⟩

/-- C8, counterexample: a request with attempt count `0` whose failure handler finds the
retries exhausted at every failure is dispatched four times (attempt counts `0, 1, 2,
3`) before the 503 answer. -/
theorem four_dispatches_before_unavailable :
    getAttemptsFromContext retriesExhaustedRequest = 0 ∧
    (LoadBalance alwaysFails 5 retriesExhaustedRequest (freshWorld singleAliveRegistry)).map
        (fun r => (r.1.status, dispatchCount r.2,
          r.2.forwards.map (fun f => (getRetryFromContext f.req, getAttemptsFromContext f.req))))
      = some (some 503, 4, [(3, 0), (3, 1), (3, 2), (3, 3)]) ∧
    ¬ (4 ≤ 3) := by
  decide

/-- C4, evaluated at the failing input: the failure handler of the only endpoint runs
with the retries exhausted; afterwards the endpoint is still alive, the re-dispatch has
selected and forwarded to that same endpoint, and a later `getNextPeer` returns it. -/
theorem endpoint_not_marked_dead :
    ∃ r w1, ErrorHandler alwaysSucceeds (LoadBalance alwaysSucceeds 5) 0
        (mkBackend "a:80" true).URL retriesExhaustedRequest (freshWorld singleAliveRegistry) =
        some (r, w1) ∧
      r = Response.fromBackend 0 ∧
      w1.lb.Endpoints.map Backend.IsAlive = [true] ∧
      w1.log = [LogLine.proxyError, LogLine.status (mkBackend "a:80" true).URL false,
        LogLine.attemptingRetry 0] ∧
      (getNextPeer w1.lb).1 = Peer.backend 0 :=
  ⟨_, _, rfl, rfl, rfl, rfl, rfl⟩

/-! ## The two scenarios of the selector -/

/-- C11 (amended): for the registry `[A, B, C]` with all endpoints alive and cursor `0`,
the first four consecutive `getNextPeer` calls return `B, C, A, B` in that order: the
cursor is incremented before it is used. -/
theorem abc_first_four (a b c : URL) :
    (getNextPeerCalls 4 (abcRegistry a b c 0)).1 =
      [Peer.backend 1, Peer.backend 2, Peer.backend 0, Peer.backend 1] := by
  have hall : allAlive (abcRegistry a b c 0) := by
    intro x hx
    simp only [abcRegistry, List.mem_cons, List.mem_singleton, List.not_mem_nil, or_false] at hx
    rcases hx with rfl | rfl | rfl <;> rfl
  have h := getNextPeerCalls_allAlive 4 (abcRegistry a b c 0) (by simp [abcRegistry]) hall
    (by simp [abcRegistry, uint64Size])
  rw [h]
  simp [abcRegistry, List.range_succ]

/-- C11, counterexample: with cursor `0` the four calls do not return `A, B, C, A`; the
first call already returns `B`. -/
theorem abc_first_four_not_from_A :
    allAlive (abcRegistry (hostURL "a:80") (hostURL "b:80") (hostURL "c:80") 0) ∧
    (getNextPeerCalls 4 (abcRegistry (hostURL "a:80") (hostURL "b:80") (hostURL "c:80") 0)).1 ≠
      [Peer.backend 0, Peer.backend 1, Peer.backend 2, Peer.backend 0] ∧
    (getNextPeer (abcRegistry (hostURL "a:80") (hostURL "b:80") (hostURL "c:80") 0)).1 =
      Peer.backend 1 := by
  decide

theorem getNextPeer_abRegistry (a b : URL) (cursor : Nat) :
    ∃ cursor1, getNextPeer (abRegistry a b cursor) = (Peer.backend 1, abRegistry a b cursor1) := by
  rcases Nat.mod_two_eq_zero_or_one ((cursor + 1) % uint64Size) with h | h
  · exact ⟨1, by simp [getNextPeer, nextIdx, abRegistry, h, getNextPeerLoop, Backend.IsAlive]⟩
  · exact ⟨(cursor + 1) % uint64Size,
      by simp [getNextPeer, nextIdx, abRegistry, h, getNextPeerLoop, Backend.IsAlive]⟩

theorem getNextPeerCalls_abRegistry (a b : URL) (n : Nat) : ∀ cursor,
    (getNextPeerCalls n (abRegistry a b cursor)).1 = List.replicate n (Peer.backend 1) := by
  induction n with
  | zero => intro cursor; rfl
  | succ n ih =>
    intro cursor
    obtain ⟨cursor1, h⟩ := getNextPeer_abRegistry a b cursor
    simp [getNextPeerCalls, h, ih, List.replicate_succ]

/-- C12: for the registry `[A, B]` with `A` dead and `B` alive, every starting cursor
value and every `k ≥ 1`, the `k`-th consecutive `getNextPeer` call returns `B`. -/
theorem ab_every_call_returns_B (a b : URL) (cursor k : Nat) (hk : 1 ≤ k) :
    getNextPeerKth k (abRegistry a b cursor) = some (Peer.backend 1) := by
  obtain ⟨n, rfl⟩ : ∃ n, k = n + 1 := ⟨k - 1, by omega⟩
  rw [getNextPeerKth, getNextPeerCalls_abRegistry, List.replicate_succ']
  simp

/-- C12, witness: the fifth call, starting from the largest cursor value. -/
theorem ab_every_call_returns_B_witness :
    1 ≤ 5 ∧ getNextPeerKth 5 (abRegistry (hostURL "a:80") (hostURL "b:80") (2 ^ 64 - 1)) =
      some (Peer.backend 1) :=
  ⟨by decide, ab_every_call_returns_B (hostURL "a:80") (hostURL "b:80") (2 ^ 64 - 1) 5 (by decide)⟩

/-! ## What the scan of `getNextPeer` returns -/

theorem aliveAt_of_getElem? (lb : HttpLoadBalancer) (i : Nat) (b : Backend)
    (h : lb.Endpoints[i]? = some b) : aliveAt lb i = b.IsAlive := by
  simp [aliveAt, h]

/-- The scan started at `i` with `r` iterations left: either it finds no alive endpoint
at `i, …, i + r - 1` and returns `nil` without touching the state, or it stops at the
first `t` in that range whose endpoint `t % len` is alive. -/
theorem getNextPeerLoop_spec (lb : HttpLoadBalancer) (next : Nat)
    (hN : 1 ≤ lb.Endpoints.length) : ∀ r i,
    (getNextPeerLoop lb next r i = (Peer.nil, lb) ∧
      ∀ t, i ≤ t → t < i + r → aliveAt lb (t % lb.Endpoints.length) = false) ∨
    (∃ t, i ≤ t ∧ t < i + r ∧ aliveAt lb (t % lb.Endpoints.length) = true ∧
      (∀ s, i ≤ s → s < t → aliveAt lb (s % lb.Endpoints.length) = false) ∧
      getNextPeerLoop lb next r i =
        (Peer.backend (t % lb.Endpoints.length),
          if t ≠ next then { lb with current := t % lb.Endpoints.length } else lb)) := by
  intro r
  induction r with
  | zero =>
    intro i
    exact Or.inl ⟨rfl, fun t h1 h2 => by omega⟩
  | succ r ih =>
    intro i
    have hlt : i % lb.Endpoints.length < lb.Endpoints.length := Nat.mod_lt _ (by omega)
    have hget := List.getElem?_eq_getElem hlt
    have hal := aliveAt_of_getElem? lb _ _ hget
    by_cases hb : (lb.Endpoints[i % lb.Endpoints.length]).IsAlive = true
    · refine Or.inr ⟨i, Nat.le_refl _, by omega, by rw [hal, hb], fun s h1 h2 => by omega, ?_⟩
      simp [getNextPeerLoop, hget, hb]
    · have hstep : getNextPeerLoop lb next (r + 1) i = getNextPeerLoop lb next r (i + 1) := by
        simp [getNextPeerLoop, hget, hb]
      have hdead : aliveAt lb (i % lb.Endpoints.length) = false := by
        rw [hal]; simpa using hb
      rcases ih (i + 1) with ⟨h1, h2⟩ | ⟨t, h1, h2, h3, h4, h5⟩
      · refine Or.inl ⟨by rw [hstep, h1], fun t ht1 ht2 => ?_⟩
        by_cases hti : t = i
        · rw [hti]; exact hdead
        · exact h2 t (by omega) (by omega)
      · refine Or.inr ⟨t, by omega, by omega, h3, fun s hs1 hs2 => ?_, by rw [hstep, h5]⟩
        by_cases hsi : s = i
        · rw [hsi]; exact hdead
        · exact h4 s (by omega) hs2

/-- The call of `getNextPeer` on a non-empty registry, with `start` the index computed by
`nextIdx` and `cursor1` the incremented cursor: it returns `nil` with the cursor at
`cursor1`; or the endpoint at `start`, alive, with the cursor at `cursor1`; or an alive
endpoint at another index `j`, with the cursor at `j`. -/
theorem getNextPeer_cases (lb : HttpLoadBalancer) (hN : 1 ≤ lb.Endpoints.length) :
    getNextPeer lb = (Peer.nil, { lb with current := (lb.current + 1) % uint64Size }) ∨
    (aliveAt lb ((lb.current + 1) % uint64Size % lb.Endpoints.length) = true ∧
      getNextPeer lb = (Peer.backend ((lb.current + 1) % uint64Size % lb.Endpoints.length),
        { lb with current := (lb.current + 1) % uint64Size })) ∨
    (∃ j, j < lb.Endpoints.length ∧ j ≠ (lb.current + 1) % uint64Size % lb.Endpoints.length ∧
      aliveAt lb j = true ∧
      getNextPeer lb = (Peer.backend j, { lb with current := j })) := by
  have hne : lb.Endpoints.length ≠ 0 := by omega
  have hlt : (lb.current + 1) % uint64Size % lb.Endpoints.length < lb.Endpoints.length :=
    Nat.mod_lt _ (by omega)
  have hcall : getNextPeer lb =
      getNextPeerLoop { lb with current := (lb.current + 1) % uint64Size }
        ((lb.current + 1) % uint64Size % lb.Endpoints.length)
        (lb.Endpoints.length + 1 - (lb.current + 1) % uint64Size % lb.Endpoints.length)
        ((lb.current + 1) % uint64Size % lb.Endpoints.length) := by
    simp [getNextPeer, nextIdx, hne]
  generalize hstart : (lb.current + 1) % uint64Size % lb.Endpoints.length = start at hlt hcall ⊢
  rcases getNextPeerLoop_spec { lb with current := (lb.current + 1) % uint64Size } start hN
      (lb.Endpoints.length + 1 - start) start with ⟨h1, -⟩ | ⟨t, h1, h2, h3, h4, h5⟩
  · exact Or.inl (by rw [hcall, h1])
  · have hal : ∀ i, aliveAt { lb with current := (lb.current + 1) % uint64Size } i = aliveAt lb i :=
      fun i => rfl
    simp only [hal] at h3 h4
    by_cases hts : t = start
    · subst hts
      refine Or.inr (Or.inl ⟨?_, ?_⟩)
      · rw [Nat.mod_eq_of_lt hlt] at h3; exact h3
      · rw [hcall, h5, Nat.mod_eq_of_lt hlt]; simp
    · refine Or.inr (Or.inr ⟨t % lb.Endpoints.length, Nat.mod_lt _ (by omega), ?_, h3, ?_⟩)
      · intro heq
        have hdead := h4 start (Nat.le_refl _) (by omega)
        rw [Nat.mod_eq_of_lt hlt] at hdead
        rw [heq] at h3
        rw [hdead] at h3
        exact Bool.noConfusion h3
      · rw [hcall, h5]; simp [hts]

/-- On a non-empty registry `getNextPeer` does not panic, keeps the list of endpoints and
returns only indices below the registry size. -/
theorem getNextPeer_returns_member (lb : HttpLoadBalancer) (hN : 1 ≤ lb.Endpoints.length) :
    (getNextPeer lb).2.Endpoints = lb.Endpoints ∧
    (getNextPeer lb).1 ≠ Peer.panicked ∧
    ∀ j, (getNextPeer lb).1 = Peer.backend j → j < lb.Endpoints.length := by
  have hlt : (lb.current + 1) % uint64Size % lb.Endpoints.length < lb.Endpoints.length :=
    Nat.mod_lt _ (by omega)
  rcases getNextPeer_cases lb hN with h | ⟨-, h⟩ | ⟨j, hjlt, -, -, h⟩
  · rw [h]; exact ⟨rfl, fun hc => (by cases hc), fun j hj => (by cases hj)⟩
  · rw [h]; exact ⟨rfl, fun hc => (by cases hc), fun j hj => (by cases hj; exact hlt)⟩
  · rw [h]; exact ⟨rfl, fun hc => (by cases hc), fun j1 hj => (by cases hj; exact hjlt)⟩

theorem getElem?_of_aliveAt (lb : HttpLoadBalancer) (j : Nat) (h : aliveAt lb j = true) :
    ∃ b, lb.Endpoints[j]? = some b ∧ b.IsAlive = true := by
  unfold aliveAt at h
  cases hb : lb.Endpoints[j]? with
  | none => rw [hb] at h; exact Bool.noConfusion h
  | some b => rw [hb] at h; exact ⟨b, rfl, h⟩

/-- C15, evaluated at the failing input: in the registry `[a dead, b alive, c dead]` with
cursor `1` the scan worded by the specification (indices `2, 0, 1, 2`) finds the
endpoint at index `1`, while `getNextPeer` reads the indices `2` and `0` only and
returns `nil` although an endpoint is alive. -/
theorem scan_stops_before_full_wrap :
    specNextPeer middleAliveRegistry = some 1 ∧
      (getNextPeer middleAliveRegistry).1 = Peer.nil ∧
      ¬ noneAlive middleAliveRegistry := by
  decide

/-- C18 (amended): for every non-empty registry of size `N` and every cursor value `c`,
with `start = ((c + 1) mod 2 ^ 64) mod N`: if `getNextPeer` returns the endpoint at an
index `j` other than `start`, the cursor afterwards is `j`; if it returns the endpoint
at `start`, or returns `nil`, the cursor afterwards is `(c + 1) mod 2 ^ 64`. -/
theorem cursor_after_getNextPeer (lb : HttpLoadBalancer) (hN : 1 ≤ lb.Endpoints.length) :
    (∀ j, (getNextPeer lb).1 = Peer.backend j →
      j ≠ (lb.current + 1) % uint64Size % lb.Endpoints.length →
      (getNextPeer lb).2.current = j) ∧
    ((getNextPeer lb).1 = Peer.backend ((lb.current + 1) % uint64Size % lb.Endpoints.length) →
      (getNextPeer lb).2.current = (lb.current + 1) % uint64Size) ∧
    ((getNextPeer lb).1 = Peer.nil →
      (getNextPeer lb).2.current = (lb.current + 1) % uint64Size) := by
  rcases getNextPeer_cases lb hN with h | ⟨-, h⟩ | ⟨j, -, hj, -, h⟩
  · rw [h]
    exact ⟨fun j hj => (by cases hj), fun hj => (by cases hj), fun _ => rfl⟩
  · rw [h]
    refine ⟨fun j hj hne => ?_, fun _ => rfl, fun hj => (by cases hj)⟩
    cases hj
    exact absurd rfl hne
  · rw [h]
    refine ⟨fun j1 hj1 _ => ?_, fun hj1 => ?_, fun hj1 => (by cases hj1)⟩
    · cases hj1; rfl
    · cases hj1
      exact absurd rfl hj

/-- C18, witness: first endpoint dead, cursor at the largest value: `start = 0`, the
endpoint at index `1` is returned and the cursor afterwards is `1`. -/
theorem cursor_after_getNextPeer_witness :
    (1 ≤ lastCursorRegistry.Endpoints.length ∧
      (getNextPeer lastCursorRegistry).1 = Peer.backend 1 ∧
      1 ≠ (lastCursorRegistry.current + 1) % uint64Size % lastCursorRegistry.Endpoints.length) ∧
    (getNextPeer lastCursorRegistry).2.current = 1 :=
  ⟨⟨by decide, by decide, by decide⟩,
    (cursor_after_getNextPeer lastCursorRegistry (by decide)).1 1 (by decide) (by decide)⟩

/-- C18, counterexample: with three endpoints, the first dead, and the cursor at
`2 ^ 64 - 1`, the index `(c + 1) mod N` is `1`; `getNextPeer` returns the endpoint at
index `1`, yet the cursor afterwards is `1` and not `(c + 1) mod 2 ^ 64 = 0`. -/
theorem cursor_after_call_literal_start :
    1 ≤ lastCursorRegistry.Endpoints.length ∧
    (lastCursorRegistry.current + 1) % lastCursorRegistry.Endpoints.length = 1 ∧
    (getNextPeer lastCursorRegistry).1 = Peer.backend 1 ∧
    (getNextPeer lastCursorRegistry).2.current = 1 ∧
    (lastCursorRegistry.current + 1) % uint64Size = 0 ∧
    (getNextPeer lastCursorRegistry).2.current ≠ (lastCursorRegistry.current + 1) % uint64Size := by
  decide

/-- C19: for every non-empty registry and every cursor value, whenever `getNextPeer`
returns an endpoint, it is the endpoint at an index of the registry and its `IsAlive()`
is true; the call leaves the list of endpoints, with their liveness flags, as it was. -/
theorem getNextPeer_returns_alive_member (lb : HttpLoadBalancer)
    (hN : 1 ≤ lb.Endpoints.length) :
    (getNextPeer lb).2.Endpoints = lb.Endpoints ∧
    ∀ j, (getNextPeer lb).1 = Peer.backend j →
      j < lb.Endpoints.length ∧ ∃ b, lb.Endpoints[j]? = some b ∧ b.IsAlive = true := by
  have hlt : (lb.current + 1) % uint64Size % lb.Endpoints.length < lb.Endpoints.length :=
    Nat.mod_lt _ (by omega)
  rcases getNextPeer_cases lb hN with h | ⟨ha, h⟩ | ⟨j, hjlt, -, ha, h⟩
  · rw [h]; exact ⟨rfl, fun j hj => (by cases hj)⟩
  · rw [h]
    refine ⟨rfl, fun j hj => ?_⟩
    cases hj
    exact ⟨hlt, getElem?_of_aliveAt lb _ ha⟩
  · rw [h]
    refine ⟨rfl, fun j1 hj1 => ?_⟩
    cases hj1
    exact ⟨hjlt, getElem?_of_aliveAt lb _ ha⟩

/-- C19, witness: `[a dead, b alive, c alive]`: the call returns the endpoint at index
`1`, which is alive. -/
theorem getNextPeer_returns_alive_member_witness :
    (1 ≤ lastCursorRegistry.Endpoints.length ∧
      (getNextPeer lastCursorRegistry).1 = Peer.backend 1) ∧
    (1 < lastCursorRegistry.Endpoints.length ∧
      ∃ b, lastCursorRegistry.Endpoints[1]? = some b ∧ b.IsAlive = true) :=
  ⟨⟨by decide, by decide⟩,
    (getNextPeer_returns_alive_member lastCursorRegistry (by decide)).2 1 (by decide)⟩

/-! ## The counters carried by the failure handler -/

/-- C16, evaluated at the failing input: the failure handler runs for requests whose
retry count is `0` (absent) and `2`; the request it forwards again to the same endpoint
carries the retry count `0`, respectively `2`, not `1` and `3`. -/
theorem retry_count_not_incremented :
    getRetryFromContext entryRequest = 0 ∧
    (ErrorHandler alwaysFails (LoadBalance alwaysFails 1) 0 (hostURL "a:80") entryRequest
        (freshWorld singleAliveRegistry)).map
      (fun r => r.2.forwards.map (fun f => (f.idx, f.via, getRetryFromContext f.req))) =
      some [(0, Via.proxy, 0)] ∧
    (ErrorHandler alwaysFails (LoadBalance alwaysFails 1) 0 (hostURL "a:80")
        { retry := some 2, attempts := none } (freshWorld singleAliveRegistry)).map
      (fun r => r.2.forwards.map (fun f => (f.idx, f.via, getRetryFromContext f.req))) =
      some [(0, Via.proxy, 2)] := by
  decide

/-- C17 (amended): when the failure handler runs with the retries exhausted (retry
count `3`) and attempt count `a` below the largest `int`, the request it re-dispatches
through `LoadBalance` carries the attempt count `a + 1` and the retry count it had,
`3`. -/
theorem failover_redispatch_request (roundTrip : Nat → Nat → Bool)
    (loadBalance : Request → World → Option (Response × World))
    (idx : Nat) (endpointUrl : URL) (req : Request) (w : World)
    (hr : getRetryFromContext req = 3)
    (hlo : -2 ^ 63 ≤ getAttemptsFromContext req) (hhi : getAttemptsFromContext req < 2 ^ 63 - 1) :
    ErrorHandler roundTrip loadBalance idx endpointUrl req w =
      loadBalance { retry := req.retry, attempts := some (getAttemptsFromContext req + 1) }
        { w with log := w.log ++ [LogLine.proxyError] ++ [LogLine.status endpointUrl false] ++
            [LogLine.attemptingRetry (getAttemptsFromContext req)] } ∧
    getAttemptsFromContext
      { retry := req.retry, attempts := some (getAttemptsFromContext req + 1) } =
      getAttemptsFromContext req + 1 ∧
    getRetryFromContext
      { retry := req.retry, attempts := some (getAttemptsFromContext req + 1) } = 3 := by
  have hw : wrapInt (getAttemptsFromContext req + 1) = getAttemptsFromContext req + 1 := by
    unfold wrapInt
    omega
  refine ⟨?_, rfl, hr⟩
  have hnot : ¬ getRetryFromContext req < 3 := by omega
  simp only [ErrorHandler, hnot, if_false, MarkEndpointStatus, hw]

/-- C17, witness: retry count `3`, attempt count absent, on one alive endpoint. -/
theorem failover_redispatch_request_witness :
    (getRetryFromContext retriesExhaustedRequest = 3 ∧
      -2 ^ 63 ≤ getAttemptsFromContext retriesExhaustedRequest ∧
      getAttemptsFromContext retriesExhaustedRequest < 2 ^ 63 - 1) ∧
    getRetryFromContext
      { retry := retriesExhaustedRequest.retry,
        attempts := some (getAttemptsFromContext retriesExhaustedRequest + 1) } = 3 :=
  ⟨⟨by decide, by decide, by decide⟩,
    (failover_redispatch_request alwaysSucceeds (LoadBalance alwaysSucceeds 1) 0
      (hostURL "a:80") retriesExhaustedRequest (freshWorld singleAliveRegistry)
      (by decide) (by decide) (by decide)).2.2⟩

/-- C17, counterexample: the handler runs with retry count `3` and attempt count `0`;
the request that the re-dispatch forwards carries the attempt count `1` and the retry
count `3`, not `0`. -/
theorem failover_keeps_retry_count :
    getRetryFromContext retriesExhaustedRequest = 3 ∧
    getAttemptsFromContext retriesExhaustedRequest = 0 ∧
    (ErrorHandler alwaysSucceeds (LoadBalance alwaysSucceeds 1) 0 (hostURL "a:80")
        retriesExhaustedRequest (freshWorld singleAliveRegistry)).map
      (fun r => r.2.forwards.map
        (fun f => (f.via, getAttemptsFromContext f.req, getRetryFromContext f.req))) =
      some [(Via.backendReverseProxy, 1, 3)] ∧
    (3 : Int) ≠ 0 := by
  decide

/-! ## Registries built by `AddEndpoint` and the empty registry -/

theorem AddEndpoint_noneAlive (parse : String → Except String URL) (newUrl : String)
    (lb : HttpLoadBalancer) (h : noneAlive lb) : noneAlive (AddEndpoint parse newUrl lb).2 := by
  unfold AddEndpoint
  cases parse newUrl with
  | error err => exact h
  | ok u =>
    intro b hb
    simp only [List.mem_append, List.mem_singleton] at hb
    rcases hb with hb | rfl
    · exact h b hb
    · rfl

theorem AddEndpoints_noneAlive (parse : String → Except String URL) (urls : List String) :
    ∀ lb, noneAlive lb → noneAlive (AddEndpoints parse urls lb) := by
  induction urls with
  | nil => intro lb h; exact h
  | cons u rest ih => intro lb h; exact ih _ (AddEndpoint_noneAlive parse u lb h)

theorem LoadBalance_dead_registry (roundTrip : Nat → Nat → Bool) (fuel : Nat)
    (req : Request) (w : World) (hN : 1 ≤ w.lb.Endpoints.length) (hdead : noneAlive w.lb) :
    ∃ r w1, LoadBalance roundTrip (fuel + 1) req w = some (r, w1) ∧
      r.status = some 503 ∧ w1.forwards = w.forwards := by
  by_cases h : getAttemptsFromContext req > 3
  · exact ⟨Response.serviceUnavailable "Service not available",
      { w with log := w.log ++ [LogLine.maxAttemptsReached] },
      by simp [LoadBalance, h], rfl, rfl⟩
  · refine ⟨Response.serviceUnavailable "Service is not available",
      { w with lb := { w.lb with current := (w.lb.current + 1) % uint64Size } }, ?_, rfl, rfl⟩
    simp [LoadBalance, h, getNextPeer_of_noneAlive w.lb hN hdead]

/-- On a non-empty registry a `LoadBalance` call that ends does not end in a panic, and
it leaves the list of endpoints as it was. -/
theorem LoadBalance_no_panic (roundTrip : Nat → Nat → Bool) :
    ∀ (fuel : Nat) (req : Request) (w : World) (r : Response) (w1 : World),
      1 ≤ w.lb.Endpoints.length → LoadBalance roundTrip fuel req w = some (r, w1) →
      r ≠ Response.panicked ∧ w1.lb.Endpoints = w.lb.Endpoints := by
  intro fuel
  induction fuel with
  | zero => intro req w r w1 _ h; simp [LoadBalance] at h
  | succ fuel ih =>
    intro req w r w1 hN h
    unfold LoadBalance at h
    by_cases ha : getAttemptsFromContext req > 3
    · simp only [ha, if_true, Option.some.injEq, Prod.mk.injEq] at h
      obtain ⟨rfl, rfl⟩ := h
      exact ⟨fun hc => (by cases hc), rfl⟩
    · simp only [ha, if_false] at h
      have hsel := getNextPeer_returns_member w.lb hN
      rcases hp : getNextPeer w.lb with ⟨p, lb1⟩
      rw [hp] at h hsel
      obtain ⟨hE, hmem⟩ := hsel
      simp only at hE
      cases p with
      | panicked => exact absurd rfl hmem.1
      | nil =>
        simp only [Option.some.injEq, Prod.mk.injEq] at h
        obtain ⟨rfl, rfl⟩ := h
        exact ⟨fun hc => (by cases hc), hE⟩
      | backend idx =>
        have hidx : idx < lb1.Endpoints.length := by rw [hE]; exact hmem.2 idx rfl
        simp only [List.getElem?_eq_getElem hidx, ServeHTTP] at h
        by_cases hrt : roundTrip w.forwards.length idx = true
        · simp only [hrt, if_true, Option.some.injEq, Prod.mk.injEq] at h
          obtain ⟨rfl, rfl⟩ := h
          exact ⟨fun hc => (by cases hc), hE⟩
        · simp only [hrt, if_false, ErrorHandler, Bool.false_eq_true] at h
          by_cases hr : getRetryFromContext req < 3
          · simp only [hr, if_true, ServeHTTP] at h
            split at h
            · simp only [Option.some.injEq, Prod.mk.injEq] at h
              obtain ⟨rfl, rfl⟩ := h
              exact ⟨fun hc => (by cases hc), hE⟩
            · simp only [Option.some.injEq, Prod.mk.injEq] at h
              obtain ⟨rfl, rfl⟩ := h
              exact ⟨fun hc => (by cases hc), hE⟩
          · simp only [hr, if_false, MarkEndpointStatus] at h
            obtain ⟨h1, h2⟩ := ih _ _ r w1 (by simpa [hE] using hN) h
            exact ⟨h1, by rw [h2]; exact hE⟩

/-- C13 (amended): in every state whose registry holds at least one endpoint (every state
reached from `InitHttpLoadBalancer` by `AddEndpoint` calls of which one succeeded is
such a state), selection does not divide by zero or index out of range: `nextIdx`
returns an index below the registry size, `getNextPeer` does not panic and returns only
such indices, and a `LoadBalance` call does not end in a panic; for a request with a
non-negative attempt count it ends. -/
theorem selection_defined_on_nonempty (roundTrip : Nat → Nat → Bool) (req : Request)
    (w : World) (hN : 1 ≤ w.lb.Endpoints.length) :
    (∃ start, (nextIdx w.lb).1 = some start ∧ start < w.lb.Endpoints.length) ∧
    (getNextPeer w.lb).1 ≠ Peer.panicked ∧
    (∀ j, (getNextPeer w.lb).1 = Peer.backend j → j < w.lb.Endpoints.length) ∧
    (∀ fuel r w1, LoadBalance roundTrip fuel req w = some (r, w1) → r ≠ Response.panicked) ∧
    (0 ≤ getAttemptsFromContext req →
      ∀ fuel, ∃ r w1, LoadBalance roundTrip (fuel + 5) req w = some (r, w1) ∧
        r ≠ Response.panicked) := by
  have hne : w.lb.Endpoints.length ≠ 0 := by omega
  obtain ⟨-, hp, hidx⟩ := getNextPeer_returns_member w.lb hN
  refine ⟨⟨(w.lb.current + 1) % uint64Size % w.lb.Endpoints.length, ?_,
    Nat.mod_lt _ (by omega)⟩, hp, hidx, ?_, ?_⟩
  · simp [nextIdx, hne]
  · intro fuel r w1 h
    exact (LoadBalance_no_panic roundTrip fuel req w r w1 hN h).1
  · intro ha fuel
    obtain ⟨r, w1, h, -⟩ := LoadBalance_dispatch_bound roundTrip (fuel + 5) req w ha (by omega)
    exact ⟨r, w1, h, (LoadBalance_no_panic roundTrip (fuel + 5) req w r w1 hN h).1⟩

/-- C13, witness: the state after one successful `AddEndpoint`, a request at entry. -/
theorem selection_defined_on_nonempty_witness :
    (1 ≤ (freshWorld (AddEndpoints sampleParse ["a:80"] InitHttpLoadBalancer)).lb.Endpoints.length ∧
      0 ≤ getAttemptsFromContext entryRequest) ∧
    ∃ r w1, LoadBalance alwaysSucceeds (0 + 5) entryRequest
        (freshWorld (AddEndpoints sampleParse ["a:80"] InitHttpLoadBalancer)) = some (r, w1) ∧
      r ≠ Response.panicked :=
  ⟨⟨by decide, by decide⟩,
    (selection_defined_on_nonempty alwaysSucceeds entryRequest
      (freshWorld (AddEndpoints sampleParse ["a:80"] InitHttpLoadBalancer))
      (by decide)).2.2.2.2 (by decide) 0⟩

/-- C13, counterexample: after no `AddEndpoint` call, or after one that failed, the
registry is empty: `nextIdx` divides by zero and `getNextPeer` and `LoadBalance` end in
that panic. -/
theorem empty_registry_panics :
    AddEndpoints sampleParse [] InitHttpLoadBalancer = InitHttpLoadBalancer ∧
    AddEndpoints sampleParse [""] InitHttpLoadBalancer = InitHttpLoadBalancer ∧
    InitHttpLoadBalancer.Endpoints.length = 0 ∧
    (nextIdx InitHttpLoadBalancer).1 = none ∧
    (getNextPeer InitHttpLoadBalancer).1 = Peer.panicked ∧
    (LoadBalance alwaysSucceeds 1 entryRequest (freshWorld InitHttpLoadBalancer)).map Prod.fst =
      some Response.panicked := by
  decide

/-- C20: after a successful `AddEndpoint` the newly appended endpoint's `IsAlive()` is
false; hence for every non-empty registry built from `InitHttpLoadBalancer` by
`AddEndpoint` calls only, whatever the cursor, `getNextPeer` returns `nil` and
`LoadBalance` answers 503 Service Unavailable without forwarding. -/
theorem registered_endpoints_start_dead (parse : String → Except String URL)
    (urls : List String) (roundTrip : Nat → Nat → Bool) (fuel : Nat) (req : Request)
    (cursor : Nat) :
    (∀ newUrl lb lb1, AddEndpoint parse newUrl lb = (none, lb1) →
      ∃ b, lb1.Endpoints = lb.Endpoints ++ [b] ∧ b.IsAlive = false) ∧
    (1 ≤ (AddEndpoints parse urls InitHttpLoadBalancer).Endpoints.length →
      (getNextPeer { AddEndpoints parse urls InitHttpLoadBalancer with current := cursor }).1 =
        Peer.nil ∧
      ∃ r w1, LoadBalance roundTrip (fuel + 1) req
          (freshWorld { AddEndpoints parse urls InitHttpLoadBalancer with current := cursor }) =
          some (r, w1) ∧
        r.status = some 503 ∧ w1.forwards = []) := by
  refine ⟨?_, ?_⟩
  · intro newUrl lb lb1 h
    unfold AddEndpoint at h
    cases hp : parse newUrl with
    | error err => rw [hp] at h; simp at h
    | ok u =>
      rw [hp] at h
      simp only [Prod.mk.injEq, true_and] at h
      exact ⟨{ URL := u, Alive := false }, by rw [← h], rfl⟩
  · intro hN
    have hdead : noneAlive (AddEndpoints parse urls InitHttpLoadBalancer) :=
      AddEndpoints_noneAlive parse urls _ (fun b hb => by cases hb)
    have hdead1 : noneAlive
        { AddEndpoints parse urls InitHttpLoadBalancer with current := cursor } := hdead
    refine ⟨?_, ?_⟩
    · exact congrArg Prod.fst (getNextPeer_of_noneAlive
        { AddEndpoints parse urls InitHttpLoadBalancer with current := cursor } hN hdead1)
    · exact LoadBalance_dead_registry roundTrip fuel req
        (freshWorld { AddEndpoints parse urls InitHttpLoadBalancer with current := cursor })
        hN hdead1

/-- C20, witness: two endpoints registered, nothing else done. -/
theorem registered_endpoints_start_dead_witness :
    (AddEndpoint sampleParse "a:80" InitHttpLoadBalancer =
        (none, AddEndpoints sampleParse ["a:80"] InitHttpLoadBalancer) ∧
      1 ≤ (AddEndpoints sampleParse ["a:80", "b:80"] InitHttpLoadBalancer).Endpoints.length) ∧
    (∃ b, (AddEndpoints sampleParse ["a:80"] InitHttpLoadBalancer).Endpoints =
        InitHttpLoadBalancer.Endpoints ++ [b] ∧ b.IsAlive = false) ∧
    (getNextPeer
      { AddEndpoints sampleParse ["a:80", "b:80"] InitHttpLoadBalancer with current := 0 }).1 =
        Peer.nil :=
  ⟨⟨by decide, by decide⟩,
    (registered_endpoints_start_dead sampleParse ["a:80", "b:80"] alwaysSucceeds 0
      entryRequest 0).1 "a:80" InitHttpLoadBalancer _ (by decide),
    ((registered_endpoints_start_dead sampleParse ["a:80", "b:80"] alwaysSucceeds 0
      entryRequest 0).2 (by decide)).1⟩

end LoadBalancer
